import Mathlib

/-!
Shallow embedding of the langfuse-junit-exporter core (`src/models.py`,
`src/reporting.py`) and proofs of the specification claims.

Modelling conventions:
* Python floats are embedded as rationals (`ℚ`); the numeric-to-text
  formatting performed by Python string interpolation is abstracted as an
  arbitrary rendering function `showVal : ℚ → String`, since no claim
  depends on the digits produced.  `None` interpolates to the text "None".
* Fallible calls are embedded with `Except`; a raised Python exception is
  an `Except.error` / `raised` value that propagates.
* The remote Langfuse client is an explicit environment of pure lookup
  functions, and the observable side effects of the reporting functions
  (file opens, remote calls, console output, file closes) are collected
  as an explicit effect trace.
-/

namespace LangfuseJUnit

/-- A score record, from `Score` in `models.py`: a name and a numeric value
(values are always present after construction filters out nulls). -/
structure Score where
  name : String
  value : ℚ
deriving DecidableEq, Repr

/-- The per-item record, from `GenericItemInfo` in `models.py`. -/
structure GenericItemInfo where
  item_id : String
  trace_id : String
  cost : Option ℚ
  duration : Option ℚ
  scores : List Score
deriving DecidableEq, Repr

/-- Embeds `GenericItemInfo.is_success` from `models.py`:
`any(score["name"] == success_score_name and score.get("value", 0) == 1
     for score in self.scores)`. -/
def is_success (e : GenericItemInfo) (success_score_name : String) : Bool :=
  e.scores.any (fun score => score.name == success_score_name && score.value == 1)

/-- Python `score["name"].replace(".", "_")` from `to_junit` in `models.py`:
every `.` character becomes `_` (single-character replace = per-character map). -/
def sanitizeScoreName (s : String) : String :=
  String.mk (s.data.map (fun c => if c = '.' then '_' else c))

/-- Python string interpolation of a `float | None` value: `None` renders as
the text "None", a number renders through the abstract formatter. -/
def pyOptStr (showVal : ℚ → String) : Option ℚ → String
  | none => "None"
  | some x => showVal x

/-- The `<testcase ...>` header line of `to_junit` in `models.py`. -/
def headerLine (showVal : ℚ → String) (e : GenericItemInfo) : String :=
  "<testcase classname='langfuse' name='" ++ e.item_id ++ "' time='"
    ++ pyOptStr showVal e.duration ++ "'>"

/-- The `evals.trace_id` property line of `to_junit`. -/
def traceLine (e : GenericItemInfo) : String :=
  "        <property name='evals.trace_id' value='" ++ e.trace_id ++ "' />"

/-- The `evals.cost` property line of `to_junit`, with an arbitrary rendered
value text. -/
def costLineS (v : String) : String :=
  "        <property name='evals.cost' value='" ++ v ++ "' />"

/-- The per-score property line of `to_junit`. -/
def scoreLine (showVal : ℚ → String) (s : Score) : String :=
  "        <property name='evals.scores." ++ sanitizeScoreName s.name
    ++ ".value' value='" ++ showVal s.value ++ "' />"

/-- The `<failure .../>` line of `to_junit`, emitted when the item is not a
success. -/
def failureLine (success_score_name : String) : String :=
  "    <failure message='Test case failed. " ++ success_score_name
    ++ " is either missing or its value is not 1.0' />"

/-- Embeds `GenericItemInfo.to_junit` from `models.py`, as the list of lines the
Python code accumulates before joining with newlines: header, `<properties>`,
the trace property, the cost property (only when cost is present), one
property per score, `</properties>`, the failure marker (only when
`is_success` is false), and the closing tag. -/
def to_junit_lines (showVal : ℚ → String) (e : GenericItemInfo)
    (success_score_name : String) : List String :=
  [headerLine showVal e, "    <properties>", traceLine e]
    ++ (match e.cost with
         | none => []
         | some c => [costLineS (showVal c)])
    ++ e.scores.map (scoreLine showVal)
    ++ ["    </properties>"]
    ++ (if is_success e success_score_name then [] else [failureLine success_score_name])
    ++ ["</testcase>"]

/-- Embeds `GenericItemInfo.to_junit` itself: the joined string `"\n".join(lines)`. -/
def to_junit (showVal : ℚ → String) (e : GenericItemInfo)
    (success_score_name : String) : String :=
  String.intercalate "\n" (to_junit_lines showVal e success_score_name)

/-- A dataset-run item reference, from `DatasetRunItem` (the fields the code
reads: `id` and `trace_id`). -/
structure DatasetRunItem where
  id : String
  trace_id : String
deriving DecidableEq, Repr

/-- A score attached to a remote trace; its value may be null. -/
structure TraceScore where
  name : String
  value : Option ℚ
deriving DecidableEq, Repr

/-- The payload of a fetched trace (the fields the code reads). -/
structure TraceData where
  total_cost : Option ℚ
  latency : Option ℚ
  scores : List TraceScore
deriving DecidableEq, Repr

/-- A fetched trace, as returned by `langfuse.fetch_trace`. -/
structure Trace where
  data : TraceData
deriving DecidableEq, Repr

/-- A dataset run, as returned by `langfuse.get_dataset_run`; the items
collection may be absent. -/
structure DatasetRun where
  dataset_run_items : Option (List DatasetRunItem)
deriving DecidableEq, Repr

/-- The possible results of the remote run lookup: success, or one of the
distinguishable error conditions the client can raise
(`NotFoundError`, `UnauthorizedError`, or any other exception). -/
inductive RunLookupResult where
  | ok (run : DatasetRun)
  | notFound
  | unauthorized
  | otherError (msg : String)
deriving DecidableEq, Repr

/-- The remote Langfuse client, embedded as pure lookup functions. -/
structure LangfuseEnv where
  get_dataset_run : String → String → RunLookupResult
  fetch_trace : String → Option Trace

/-- A Python exception escaping `_get_dataset_run_items`:
the `ValueError` raised by `from_langfuse_item`, or an uncaught remote
error (`UnauthorizedError` / any other exception). -/
inductive PyError where
  | valueError (msg : String)
  | unauthorizedError
  | otherError (msg : String)
deriving DecidableEq, Repr

/-- Embeds `GenericItemInfo.from_langfuse_item` from `models.py`: fetch the trace;
raise `ValueError` when it is absent; otherwise build the record, filtering
out scores whose value is null. -/
def from_langfuse_item (env : LangfuseEnv) (item : DatasetRunItem) :
    Except String GenericItemInfo :=
  match env.fetch_trace item.trace_id with
  | none => Except.error ("Trace " ++ item.trace_id ++ " not found")
  | some trace =>
      Except.ok
        { item_id := item.id
          trace_id := item.trace_id
          cost := trace.data.total_cost
          duration := trace.data.latency
          scores := trace.data.scores.filterMap
            (fun s => s.value.map (fun v => Score.mk s.name v)) }

/-- An observable side effect of the reporting functions: opening the output
file for writing, a remote run lookup, a remote trace lookup, a diagnostic
message (`click.secho`), a report write (`click.echo`, with its target), or
closing the output file. -/
inductive Effect where
  | openWrite (path : String)
  | remoteRunLookup (dataset run : String)
  | remoteTraceLookup (trace_id : String)
  | secho (message : String)
  | echo (message : String) (file : Option String)
  | closeFile (path : String)
deriving DecidableEq, Repr

/-- The item loop of `_get_dataset_run_items`: one `from_langfuse_item` call
per item in order, aborting at the first raised error, together with the
trace-lookup effects actually performed. -/
def fetchItemsTraced (env : LangfuseEnv) :
    List DatasetRunItem → Except String (List GenericItemInfo) × List Effect
  | [] => (Except.ok [], [])
  | i :: rest =>
      match from_langfuse_item env i with
      | Except.error m => (Except.error m, [Effect.remoteTraceLookup i.trace_id])
      | Except.ok g =>
          let r := fetchItemsTraced env rest
          ((r.1.map (fun gs => g :: gs)), Effect.remoteTraceLookup i.trace_id :: r.2)

/-- The outcome of one (uncached) evaluation of `_get_dataset_run_items`:
a list of items, a `None` return after a diagnostic message, or a raised
exception. -/
inductive FetchOutcome where
  | items (xs : List GenericItemInfo)
  | noneResult (message : String)
  | raised (e : PyError)
deriving DecidableEq, Repr

/-- The body of `_get_dataset_run_items` from `reporting.py` (without the
`lru_cache` wrapper), with its effect trace.  Only `NotFoundError` is caught
by the `try/except`; an `UnauthorizedError` or any other exception from the
run lookup propagates, as does the `ValueError` from `from_langfuse_item`. -/
def getDatasetRunItemsTraced (env : LangfuseEnv) (dataset_name run_name : String) :
    FetchOutcome × List Effect :=
  match env.get_dataset_run dataset_name run_name with
  | RunLookupResult.notFound =>
      (FetchOutcome.noneResult
          ("Run " ++ run_name ++ " not found in dataset " ++ dataset_name),
        [Effect.remoteRunLookup dataset_name run_name,
          Effect.secho ("Run " ++ run_name ++ " not found in dataset " ++ dataset_name)])
  | RunLookupResult.unauthorized =>
      (FetchOutcome.raised PyError.unauthorizedError,
        [Effect.remoteRunLookup dataset_name run_name])
  | RunLookupResult.otherError m =>
      (FetchOutcome.raised (PyError.otherError m),
        [Effect.remoteRunLookup dataset_name run_name])
  | RunLookupResult.ok r =>
      match r.dataset_run_items with
      | none =>
          (FetchOutcome.noneResult ("Run " ++ run_name ++ " has no items"),
            [Effect.remoteRunLookup dataset_name run_name,
              Effect.secho ("Run " ++ run_name ++ " has no items")])
      | some items =>
          let f := fetchItemsTraced env items
          match f.1 with
          | Except.error m =>
              (FetchOutcome.raised (PyError.valueError m),
                Effect.remoteRunLookup dataset_name run_name :: f.2)
          | Except.ok xs =>
              (FetchOutcome.items xs,
                Effect.remoteRunLookup dataset_name run_name :: f.2)

/-- The process-wide `lru_cache` state of `_get_dataset_run_items`: the cached
return values, keyed by the argument pair.  (Raised exceptions are never
cached by `lru_cache`.) -/
structure ProcState where
  cache : List ((String × String) × Option (List GenericItemInfo))
deriving DecidableEq, Repr

/-- Cache lookup, first match wins. -/
def lookupCache (c : List ((String × String) × Option (List GenericItemInfo)))
    (dataset_name run_name : String) :
    Option (Option (List GenericItemInfo)) :=
  match c with
  | [] => none
  | (k, v) :: rest =>
      if k = (dataset_name, run_name) then some v
      else lookupCache rest dataset_name run_name

/-- Embeds `_get_dataset_run_items` with its `lru_cache` wrapper: a cache hit
returns the stored value with no effects; a miss evaluates the body,
caching the returned value (but not a raised exception). -/
def cachedGetDatasetRunItems (env : LangfuseEnv) (st : ProcState)
    (dataset_name run_name : String) :
    Except PyError (Option (List GenericItemInfo)) × ProcState × List Effect :=
  match lookupCache st.cache dataset_name run_name with
  | some v => (Except.ok v, st, [])
  | none =>
      match getDatasetRunItemsTraced env dataset_name run_name with
      | (FetchOutcome.items xs, effs) =>
          (Except.ok (some xs),
            ProcState.mk (st.cache ++ [((dataset_name, run_name), some xs)]), effs)
      | (FetchOutcome.noneResult _, effs) =>
          (Except.ok none,
            ProcState.mk (st.cache ++ [((dataset_name, run_name), none)]), effs)
      | (FetchOutcome.raised e, effs) => (Except.error e, st, effs)

/-- Embeds `produce_junit_report` from `reporting.py`, as its effect trace: open the
output file (when given) first, then fetch; on a `None` fetch result return
early; otherwise echo the XML header, one case per item, the closing tag,
and close the file (when given).  The first component is the escaping
exception, if any. -/
def produceJunitReportTraced (env : LangfuseEnv) (showVal : ℚ → String)
    (st : ProcState) (dataset_name run_name success_score_name : String)
    (output_file : Option String) :
    Option PyError × ProcState × List Effect :=
  let openEffs : List Effect :=
    match output_file with
    | none => []
    | some p => [Effect.openWrite p]
  match cachedGetDatasetRunItems env st dataset_name run_name with
  | (Except.error e, st2, effs) => (some e, st2, openEffs ++ effs)
  | (Except.ok none, st2, effs) => (none, st2, openEffs ++ effs)
  | (Except.ok (some xs), st2, effs) =>
      (none, st2,
        openEffs ++ effs
          ++ [Effect.echo
                ("<?xml version='1.0' encoding='UTF-8'?>\n<testsuite name='langfuse-eval' tests='"
                  ++ toString xs.length ++ "'>") output_file]
          ++ xs.map (fun i => Effect.echo (to_junit showVal i success_score_name) output_file)
          ++ [Effect.echo "</testsuite>" output_file]
          ++ (match output_file with
              | none => []
              | some p => [Effect.closeFile p]))

/-- The aggregation step of `produce_text_report`: append `value` to the
entry for `name`, creating the entry at the end on first sight
(Python `defaultdict(list)` with dict insertion order). -/
def addScore (acc : List (String × List ℚ)) (name : String) (v : ℚ) :
    List (String × List ℚ) :=
  if acc.any (fun p => p.1 == name) then
    acc.map (fun p => if p.1 = name then (p.1, p.2 ++ [v]) else p)
  else acc ++ [(name, [v])]

/-- The `aggregate_scores` table of `produce_text_report`: scan every item's
scores in item order, then score order. -/
def aggregateScores (xs : List GenericItemInfo) : List (String × List ℚ) :=
  xs.foldl (fun acc item =>
    item.scores.foldl (fun a s => addScore a s.name s.value) acc) []

/-- Embeds `score_avg` from `produce_text_report`:
`sum(score_values) / len(score_values) if len(score_values) > 0 else 0`. -/
def scoreAvg (vs : List ℚ) : ℚ :=
  if 0 < vs.length then vs.sum / (vs.length : ℚ) else 0

/-- The per-score block echoed by `produce_text_report`:
`- <name>\n  avg: <avg>\n  count: <count>\n  sum: <sum>`. -/
def scoreBlock (showVal : ℚ → String) (name : String) (vs : List ℚ) : String :=
  "- " ++ name ++ "\n  avg: " ++ showVal (scoreAvg vs)
    ++ "\n  count: " ++ toString vs.length
    ++ "\n  sum: " ++ showVal vs.sum

/-- The sequence of `click.echo` writes of `produce_text_report`: title,
item count, "# All scores", then one block per aggregated score name in
first-seen order. -/
def textReportEchoes (showVal : ℚ → String) (xs : List GenericItemInfo)
    (run_name : String) (output_file : Option String) : List Effect :=
  [Effect.echo ("# Eval " ++ run_name) output_file,
    Effect.echo (toString xs.length ++ " items\n") output_file,
    Effect.echo "# All scores\n" output_file]
    ++ (aggregateScores xs).map
        (fun p => Effect.echo (scoreBlock showVal p.1 p.2) output_file)

/-- Embeds `produce_text_report` from `reporting.py`, as its effect trace.  Note the
source opens the output file a second time after the fetch succeeds, and the
`success_score_name` parameter is never used by the body. -/
def produceTextReportTraced (env : LangfuseEnv) (showVal : ℚ → String)
    (st : ProcState) (dataset_name run_name success_score_name : String)
    (output_file : Option String) :
    Option PyError × ProcState × List Effect :=
  let openEffs : List Effect :=
    match output_file with
    | none => []
    | some p => [Effect.openWrite p]
  match cachedGetDatasetRunItems env st dataset_name run_name with
  | (Except.error e, st2, effs) => (some e, st2, openEffs ++ effs)
  | (Except.ok none, st2, effs) => (none, st2, openEffs ++ effs)
  | (Except.ok (some xs), st2, effs) =>
      (none, st2,
        openEffs ++ effs ++ openEffs
          ++ textReportEchoes showVal xs run_name output_file
          ++ (match output_file with
              | none => []
              | some p => [Effect.closeFile p]))

/-- Number of remote run lookups in an effect trace. -/
def countRunLookups (effs : List Effect) : Nat :=
  effs.countP (fun e =>
    match e with
    | Effect.remoteRunLookup _ _ => true
    | _ => false)

/-- Number of remote trace lookups in an effect trace. -/
def countTraceLookups (effs : List Effect) : Nat :=
  effs.countP (fun e =>
    match e with
    | Effect.remoteTraceLookup _ => true
    | _ => false)

/-- Effects that the fetch itself can perform (remote lookups and console
diagnostics) — never a file open, report write, or file close. -/
def isFetchEffect (e : Effect) : Bool :=
  match e with
  | Effect.remoteRunLookup _ _ => true
  | Effect.remoteTraceLookup _ => true
  | Effect.secho _ => true
  | _ => false

end LangfuseJUnit

open LangfuseJUnit

/-- Two strings differing at some character position are different. -/
theorem string_ne_of_nth (a b : String) (n : Nat) (ca cb : Char)
    (ha : a.data.get? n = some ca) (hb : b.data.get? n = some cb)
    (hc : ca ≠ cb) : a ≠ b := by
  intro h
  subst h
  rw [ha] at hb
  exact hc (Option.some.inj hb)

theorem failureLine_ne_headerLine (ssn : String) (showVal : ℚ → String)
    (e : GenericItemInfo) : failureLine ssn ≠ headerLine showVal e :=
  string_ne_of_nth _ _ 4 '<' 't' rfl rfl (by decide)

theorem failureLine_ne_propertiesOpen (ssn : String) :
    failureLine ssn ≠ "    <properties>" :=
  string_ne_of_nth _ _ 5 'f' 'p' rfl rfl (by decide)

theorem failureLine_ne_traceLine (ssn : String) (e : GenericItemInfo) :
    failureLine ssn ≠ traceLine e :=
  string_ne_of_nth _ _ 4 '<' ' ' rfl rfl (by decide)

theorem failureLine_ne_costLineS (ssn v : String) :
    failureLine ssn ≠ costLineS v :=
  string_ne_of_nth _ _ 4 '<' ' ' rfl rfl (by decide)

theorem failureLine_ne_scoreLine (ssn : String) (showVal : ℚ → String)
    (s : Score) : failureLine ssn ≠ scoreLine showVal s :=
  string_ne_of_nth _ _ 4 '<' ' ' rfl rfl (by decide)

theorem failureLine_ne_propertiesClose (ssn : String) :
    failureLine ssn ≠ "    </properties>" :=
  string_ne_of_nth _ _ 5 'f' '/' rfl rfl (by decide)

theorem failureLine_ne_testcaseClose (ssn : String) :
    failureLine ssn ≠ "</testcase>" :=
  string_ne_of_nth _ _ 4 '<' 's' rfl rfl (by decide)

/-- The failure marker line never coincides with any other line produced by
`to_junit_lines`; so it appears among the rendered lines only via the
explicit failure branch. -/
theorem failureLine_not_mem_of_success (showVal : ℚ → String)
    (e : GenericItemInfo) (ssn : String) (h : is_success e ssn = true) :
    failureLine ssn ∉ to_junit_lines showVal e ssn := by
  intro hmem
  unfold to_junit_lines at hmem
  rw [h] at hmem
  simp only [if_true, List.append_nil, List.mem_append, List.mem_cons,
    List.mem_singleton, List.not_mem_nil, List.mem_map, or_false] at hmem
  rcases hmem with ((((h1 | h2 | h3) | hcost) | ⟨s, _, h5⟩) | h6) | h7
  · exact failureLine_ne_headerLine ssn showVal e h1
  · exact failureLine_ne_propertiesOpen ssn h2
  · exact failureLine_ne_traceLine ssn e h3
  · rcases hc : e.cost with _ | c <;> rw [hc] at hcost
    · simp at hcost
    · simp only [List.mem_singleton] at hcost
      exact failureLine_ne_costLineS ssn (showVal c) hcost
  · exact failureLine_ne_scoreLine ssn showVal s h5.symm
  · exact failureLine_ne_propertiesClose ssn h6
  · exact failureLine_ne_testcaseClose ssn h7

/-- C4: the rendered case contains the failure marker (with the exact message
"Test case failed. <name> is either missing or its value is not 1.0") iff
`is_success` is false. -/
theorem c4_failure_marker_iff_not_success (showVal : ℚ → String)
    (e : GenericItemInfo) (ssn : String) :
    failureLine ssn ∈ to_junit_lines showVal e ssn ↔ is_success e ssn = false := by
  cases h : is_success e ssn with
  | false =>
    simp only [iff_true]
    unfold to_junit_lines
    rw [h]
    simp
  | true =>
    constructor
    · intro hmem
      exact absurd hmem (failureLine_not_mem_of_success showVal e ssn h)
    · intro hfalse
      simp at hfalse

/-- C1: `is_success s` is true iff `scores` has a record named `s` whose value
equals exactly 1; absence of the name or any other value yields false. -/
theorem c1_is_success_iff (e : GenericItemInfo) (s : String) :
    is_success e s = true ↔ ∃ score ∈ e.scores, score.name = s ∧ score.value = 1 := by
  unfold is_success
  rw [List.any_eq_true]
  constructor
  · rintro ⟨score, hmem, hp⟩
    rw [Bool.and_eq_true, beq_iff_eq, beq_iff_eq] at hp
    exact ⟨score, hmem, hp⟩
  · rintro ⟨score, hmem, h1, h2⟩
    exact ⟨score, hmem, by rw [Bool.and_eq_true, beq_iff_eq, beq_iff_eq]; exact ⟨h1, h2⟩⟩

theorem costLineS_ne_headerLine (v : String) (showVal : ℚ → String)
    (e : GenericItemInfo) : costLineS v ≠ headerLine showVal e :=
  string_ne_of_nth _ _ 4 ' ' 't' rfl rfl (by decide)

theorem costLineS_ne_propertiesOpen (v : String) :
    costLineS v ≠ "    <properties>" :=
  string_ne_of_nth _ _ 4 ' ' '<' rfl rfl (by decide)

theorem costLineS_ne_traceLine (v : String) (e : GenericItemInfo) :
    costLineS v ≠ traceLine e :=
  string_ne_of_nth _ _ 30 'c' 't' rfl rfl (by decide)

theorem costLineS_ne_scoreLine (v : String) (showVal : ℚ → String)
    (s : Score) : costLineS v ≠ scoreLine showVal s :=
  string_ne_of_nth _ _ 30 'c' 's' rfl rfl (by decide)

theorem costLineS_ne_propertiesClose (v : String) :
    costLineS v ≠ "    </properties>" :=
  string_ne_of_nth _ _ 4 ' ' '<' rfl rfl (by decide)

theorem costLineS_ne_testcaseClose (v : String) :
    costLineS v ≠ "</testcase>" :=
  string_ne_of_nth _ _ 4 ' ' 's' rfl rfl (by decide)

/-- When `cost` is absent, no cost property line of any rendered value occurs
among the rendered lines. -/
theorem costLineS_not_mem_of_cost_none (showVal : ℚ → String)
    (e : GenericItemInfo) (ssn v : String) (hnone : e.cost = none) :
    costLineS v ∉ to_junit_lines showVal e ssn := by
  intro hmem
  unfold to_junit_lines at hmem
  rw [hnone] at hmem
  cases hsucc : is_success e ssn <;> rw [hsucc] at hmem <;>
    simp only [Bool.false_eq_true, if_true, if_false, List.nil_append,
      List.append_nil, List.mem_append, List.mem_cons, List.mem_singleton,
      List.not_mem_nil, List.mem_map, or_false] at hmem
  · rcases hmem with ((((h1 | h2 | h3) | ⟨s, _, h5⟩) | h6) | h7) | h8
    · exact costLineS_ne_headerLine v showVal e h1
    · exact costLineS_ne_propertiesOpen v h2
    · exact costLineS_ne_traceLine v e h3
    · exact costLineS_ne_scoreLine v showVal s h5.symm
    · exact costLineS_ne_propertiesClose v h6
    · exact failureLine_ne_costLineS ssn v h7.symm
    · exact costLineS_ne_testcaseClose v h8
  · rcases hmem with (((h1 | h2 | h3) | ⟨s, _, h5⟩) | h6) | h7
    · exact costLineS_ne_headerLine v showVal e h1
    · exact costLineS_ne_propertiesOpen v h2
    · exact costLineS_ne_traceLine v e h3
    · exact costLineS_ne_scoreLine v showVal s h5.symm
    · exact costLineS_ne_propertiesClose v h6
    · exact costLineS_ne_testcaseClose v h7

/-- C5: the rendered case contains an `evals.cost` property iff `cost` is
present (when absent the property is entirely omitted); the case header is
always the first rendered line and carries the duration through `pyOptStr`,
which renders an absent duration as the text "None". -/
theorem c5_cost_iff_and_duration_always (showVal : ℚ → String)
    (e : GenericItemInfo) (ssn : String) :
    ((∃ v, costLineS v ∈ to_junit_lines showVal e ssn) ↔ e.cost ≠ none)
    ∧ (to_junit_lines showVal e ssn).head? = some (headerLine showVal e)
    ∧ pyOptStr showVal none = "None" := by
  refine ⟨⟨?_, ?_⟩, rfl, rfl⟩
  · rintro ⟨v, hmem⟩ hnone
    exact costLineS_not_mem_of_cost_none showVal e ssn v hnone hmem
  · intro hne
    rcases hc : e.cost with _ | c
    · exact absurd hc hne
    · refine ⟨showVal c, ?_⟩
      unfold to_junit_lines
      rw [hc]
      simp [List.mem_append]

/-- C6: score-name sanitization leaves names without `.` unchanged, maps
"a.b.c" to "a_b_c", and every score of the item is rendered as a property
line `evals.scores.<sanitized-name>.value` among the rendered lines. -/
theorem c6_sanitization (showVal : ℚ → String) (e : GenericItemInfo)
    (ssn : String) (s : String) (hs : '.' ∉ s.data)
    (sc : Score) (hsc : sc ∈ e.scores) :
    sanitizeScoreName s = s ∧ sanitizeScoreName "a.b.c" = "a_b_c"
    ∧ scoreLine showVal sc ∈ to_junit_lines showVal e ssn := by
  refine ⟨?_, by decide, ?_⟩
  · have hlist : s.data.map (fun c => if c = '.' then '_' else c) = s.data := by
      conv_rhs => rw [← List.map_id s.data]
      apply List.map_congr_left
      intro a ha
      simp only [id]
      rw [if_neg]
      intro h
      exact hs (h ▸ ha)
    exact congrArg String.mk hlist
  · have hmem : scoreLine showVal sc ∈ e.scores.map (scoreLine showVal) :=
      List.mem_map_of_mem _ hsc
    unfold to_junit_lines
    simp [List.mem_append, hmem]

/-- Witness for C6 at a concrete item and score. -/
theorem c6_sanitization_witness :
    ('.' ∉ ("abc" : String).data)
    ∧ (⟨"a", 1⟩ : Score) ∈ (GenericItemInfo.mk "i" "t" none none [⟨"a", 1⟩]).scores
    ∧ (sanitizeScoreName "abc" = "abc" ∧ sanitizeScoreName "a.b.c" = "a_b_c"
       ∧ scoreLine (fun _ => "1") ⟨"a", 1⟩
           ∈ to_junit_lines (fun _ => "1")
               (GenericItemInfo.mk "i" "t" none none [⟨"a", 1⟩]) "a") :=
  ⟨by decide, by simp,
    c6_sanitization (fun _ => "1") (GenericItemInfo.mk "i" "t" none none [⟨"a", 1⟩])
      "a" "abc" (by decide) ⟨"a", 1⟩ (by simp)⟩

/-- A remote environment whose run lookup raises `UnauthorizedError`. -/
def envUnauthorized : LangfuseEnv where
  get_dataset_run := fun _ _ => RunLookupResult.unauthorized
  fetch_trace := fun _ => none

/-- A remote environment whose run lookup raises a generic exception. -/
def envOtherError : LangfuseEnv where
  get_dataset_run := fun _ _ => RunLookupResult.otherError "Network timeout"
  fetch_trace := fun _ => none

/-- C2 (behaviour of the code at the failing inputs): when the run lookup
raises `UnauthorizedError` or any other non-NotFound exception, the
`try/except NotFoundError` of `_get_dataset_run_items` does NOT catch it:
the exception propagates out of the fetch (and out of its `lru_cache`
wrapper) instead of being recovered with a user-facing message and a `None`
result. -/
theorem c2_non_notfound_errors_propagate :
    (getDatasetRunItemsTraced envUnauthorized "test-dataset" "test-run").1
        = FetchOutcome.raised PyError.unauthorizedError
    ∧ (getDatasetRunItemsTraced envOtherError "test-dataset" "test-run").1
        = FetchOutcome.raised (PyError.otherError "Network timeout")
    ∧ (cachedGetDatasetRunItems envUnauthorized (ProcState.mk []) "test-dataset" "test-run").1
        = Except.error PyError.unauthorizedError :=
  ⟨rfl, rfl, rfl⟩

/-- If some item of the list fails `from_langfuse_item`, the whole item loop
fails (the first failing item aborts it). -/
theorem fetchItemsTraced_error_of_mem (env : LangfuseEnv) :
    ∀ (l : List DatasetRunItem) (i : DatasetRunItem), i ∈ l →
      ∀ (m : String), from_langfuse_item env i = Except.error m →
      ∃ m2, (fetchItemsTraced env l).1 = Except.error m2 := by
  intro l
  induction l with
  | nil => intro i hmem; cases hmem
  | cons a rest ih =>
    intro i hmem m herr
    rcases List.mem_cons.mp hmem with heq | htail
    · subst heq
      refine ⟨m, ?_⟩
      unfold fetchItemsTraced
      rw [herr]
    · cases ha : from_langfuse_item env a with
      | error m3 =>
        refine ⟨m3, ?_⟩
        unfold fetchItemsTraced
        rw [ha]
      | ok g =>
        rcases ih i htail m herr with ⟨m2, hm2⟩
        refine ⟨m2, ?_⟩
        unfold fetchItemsTraced
        rw [ha]
        simp only []
        rw [hm2]
        rfl

/-- C3: when the trace lookup for an item is absent, `from_langfuse_item`
fails with the `ValueError` "Trace <id> not found", and if that item belongs
to the fetched run, the whole `_get_dataset_run_items` evaluation raises —
no partial result is produced. -/
theorem c3_trace_not_found_fatal (env : LangfuseEnv) (item : DatasetRunItem)
    (h : env.fetch_trace item.trace_id = none)
    (dataset_name run_name : String) (r : DatasetRun)
    (items : List DatasetRunItem)
    (hrun : env.get_dataset_run dataset_name run_name = RunLookupResult.ok r)
    (hitems : r.dataset_run_items = some items) (hmem : item ∈ items) :
    from_langfuse_item env item
        = Except.error ("Trace " ++ item.trace_id ++ " not found")
    ∧ ∃ m, (getDatasetRunItemsTraced env dataset_name run_name).1
            = FetchOutcome.raised (PyError.valueError m) := by
  have herr : from_langfuse_item env item
      = Except.error ("Trace " ++ item.trace_id ++ " not found") := by
    unfold from_langfuse_item
    rw [h]
  refine ⟨herr, ?_⟩
  rcases fetchItemsTraced_error_of_mem env items item hmem _ herr with ⟨m2, hm2⟩
  refine ⟨m2, ?_⟩
  unfold getDatasetRunItemsTraced
  rw [hrun]
  simp only []
  rw [hitems]
  simp only []
  rw [hm2]

/-- A remote environment for the C3 witness: the run has one item whose
trace lookup is absent. -/
def envTraceMissing : LangfuseEnv where
  get_dataset_run := fun _ _ =>
    RunLookupResult.ok (DatasetRun.mk (some [DatasetRunItem.mk "i1" "t1"]))
  fetch_trace := fun _ => none

/-- Witness for C3 at a concrete environment and item. -/
theorem c3_trace_not_found_fatal_witness :
    envTraceMissing.fetch_trace "t1" = none
    ∧ envTraceMissing.get_dataset_run "d" "r"
        = RunLookupResult.ok (DatasetRun.mk (some [DatasetRunItem.mk "i1" "t1"]))
    ∧ DatasetRunItem.mk "i1" "t1" ∈ [DatasetRunItem.mk "i1" "t1"]
    ∧ (from_langfuse_item envTraceMissing (DatasetRunItem.mk "i1" "t1")
          = Except.error ("Trace " ++ "t1" ++ " not found")
       ∧ ∃ m, (getDatasetRunItemsTraced envTraceMissing "d" "r").1
                = FetchOutcome.raised (PyError.valueError m)) :=
  ⟨rfl, rfl, by simp,
    c3_trace_not_found_fatal envTraceMissing (DatasetRunItem.mk "i1" "t1") rfl
      "d" "r" (DatasetRun.mk (some [DatasetRunItem.mk "i1" "t1"]))
      [DatasetRunItem.mk "i1" "t1"] rfl rfl (by simp)⟩

/-- The step `addScore` never creates an entry with an empty value list. -/
theorem addScore_preserves_nonempty (acc : List (String × List ℚ))
    (name : String) (v : ℚ) (h : ∀ p ∈ acc, p.2 ≠ []) :
    ∀ p ∈ addScore acc name v, p.2 ≠ [] := by
  intro p hp
  unfold addScore at hp
  split at hp
  · rcases List.mem_map.mp hp with ⟨q, hq, hpq⟩
    by_cases hqn : q.1 = name
    · rw [if_pos hqn] at hpq
      rw [← hpq]
      simp
    · rw [if_neg hqn] at hpq
      rw [← hpq]
      exact h q hq
  · rcases List.mem_append.mp hp with h1 | h2
    · exact h p h1
    · rw [List.mem_singleton] at h2
      rw [h2]
      simp

/-- Folding a property-preserving step preserves the property. -/
theorem foldl_preserves {α β : Type} (P : α → Prop) (f : α → β → α)
    (hf : ∀ a b, P a → P (f a b)) :
    ∀ (l : List β) (a : α), P a → P (l.foldl f a) := by
  intro l
  induction l with
  | nil => intro a ha; exact ha
  | cons x xs ih => intro a ha; exact ih (f a x) (hf a x ha)

/-- Every entry of the aggregate score table holds at least one value. -/
theorem aggregateScores_nonempty (xs : List GenericItemInfo) :
    ∀ p ∈ aggregateScores xs, p.2 ≠ [] := by
  have hstep : ∀ (acc : List (String × List ℚ)) (item : GenericItemInfo),
      (∀ p ∈ acc, p.2 ≠ []) →
      ∀ p ∈ item.scores.foldl (fun a s => addScore a s.name s.value) acc, p.2 ≠ [] := by
    intro acc item hacc
    exact foldl_preserves (fun a => ∀ p ∈ a, p.2 ≠ [])
      (fun a s => addScore a s.name s.value)
      (fun a s ha => addScore_preserves_nonempty a s.name s.value ha)
      item.scores acc hacc
  exact foldl_preserves (fun a => ∀ p ∈ a, p.2 ≠ [])
    (fun acc item => item.scores.foldl (fun a s => addScore a s.name s.value) acc)
    hstep xs [] (by intro p hp; cases hp)

/-- C7: every score name observed in the aggregate table has a positive
count, its reported mean is exactly sum/count, and the guarded mean of an
empty value list is 0 (the division-by-zero branch). -/
theorem c7_mean_is_sum_div_count (items : List GenericItemInfo)
    (n : String) (vs : List ℚ) (h : (n, vs) ∈ aggregateScores items) :
    0 < vs.length ∧ scoreAvg vs = vs.sum / (vs.length : ℚ)
    ∧ scoreAvg [] = 0 := by
  have hne : vs ≠ [] := aggregateScores_nonempty items (n, vs) h
  have hpos : 0 < vs.length := List.length_pos.mpr hne
  refine ⟨hpos, ?_, rfl⟩
  unfold scoreAvg
  rw [if_pos hpos]

/-- Witness for C7 at a concrete run result set. -/
theorem c7_mean_is_sum_div_count_witness :
    ("x", [(1 : ℚ)]) ∈ aggregateScores
        [GenericItemInfo.mk "i" "t" none none [Score.mk "x" 1]]
    ∧ (0 < [(1 : ℚ)].length
       ∧ scoreAvg [(1 : ℚ)] = [(1 : ℚ)].sum / (([(1 : ℚ)].length : Nat) : ℚ)
       ∧ scoreAvg [] = 0) :=
  ⟨by decide,
    c7_mean_is_sum_div_count
      [GenericItemInfo.mk "i" "t" none none [Score.mk "x" 1]]
      "x" [(1 : ℚ)] (by decide)⟩

/-- On a successful item loop, the performed effects are exactly one trace
lookup per item, in order, and the result has one record per item. -/
theorem fetchItemsTraced_ok_effects (env : LangfuseEnv) :
    ∀ (l : List DatasetRunItem) (xs : List GenericItemInfo),
      (fetchItemsTraced env l).1 = Except.ok xs →
      (fetchItemsTraced env l).2
          = l.map (fun i => Effect.remoteTraceLookup i.trace_id)
      ∧ xs.length = l.length := by
  intro l
  induction l with
  | nil =>
    intro xs h
    unfold fetchItemsTraced at h
    simp only [] at h
    cases h
    exact ⟨rfl, rfl⟩
  | cons a rest ih =>
    intro xs h
    unfold fetchItemsTraced at h ⊢
    cases ha : from_langfuse_item env a with
    | error m =>
      rw [ha] at h
      cases h
    | ok g =>
      rw [ha] at h
      simp only [] at h ⊢
      cases hr : (fetchItemsTraced env rest).1 with
      | error m2 =>
        rw [hr] at h
        simp only [Except.map] at h
        cases h
      | ok ys =>
        rw [hr] at h
        simp only [Except.map] at h
        cases h
        rcases ih ys hr with ⟨heff, hlen⟩
        constructor
        · rw [heff, List.map_cons]
        · simp [hlen]

theorem countRunLookups_traceMap (l : List DatasetRunItem) :
    countRunLookups (l.map (fun i => Effect.remoteTraceLookup i.trace_id)) = 0 := by
  induction l with
  | nil => rfl
  | cons a rest ih =>
    unfold countRunLookups at ih ⊢
    rw [List.map_cons, List.countP_cons]
    simp [ih]

theorem countTraceLookups_traceMap (l : List DatasetRunItem) :
    countTraceLookups (l.map (fun i => Effect.remoteTraceLookup i.trace_id))
      = l.length := by
  induction l with
  | nil => rfl
  | cons a rest ih =>
    unfold countTraceLookups at ih ⊢
    rw [List.map_cons, List.countP_cons]
    simp [ih]

/-- Appending a fresh entry makes it visible to lookup. -/
theorem lookupCache_append_self
    (c : List ((String × String) × Option (List GenericItemInfo)))
    (d r : String) (v : Option (List GenericItemInfo))
    (h : lookupCache c d r = none) :
    lookupCache (c ++ [((d, r), v)]) d r = some v := by
  induction c with
  | nil => simp [lookupCache]
  | cons p rest ih =>
    obtain ⟨k, v2⟩ := p
    rw [List.cons_append]
    unfold lookupCache at h ⊢
    split at h
    · cases h
    · rename_i hne
      rw [if_neg hne]
      exact ih h

/-- On a successful uncached fetch, the trace is one run lookup followed by
one trace lookup per returned item. -/
theorem getDatasetRunItemsTraced_items_effects (env : LangfuseEnv)
    (d r : String) (xs : List GenericItemInfo)
    (h : (getDatasetRunItemsTraced env d r).1 = FetchOutcome.items xs) :
    countRunLookups (getDatasetRunItemsTraced env d r).2 = 1
    ∧ countTraceLookups (getDatasetRunItemsTraced env d r).2 = xs.length := by
  unfold getDatasetRunItemsTraced at h ⊢
  cases hrun : env.get_dataset_run d r with
  | notFound => rw [hrun] at h; cases h
  | unauthorized => rw [hrun] at h; cases h
  | otherError m => rw [hrun] at h; cases h
  | ok rn =>
    rw [hrun] at h
    simp only [] at h ⊢
    cases hitems : rn.dataset_run_items with
    | none => rw [hitems] at h; cases h
    | some items =>
      rw [hitems] at h
      simp only [] at h ⊢
      cases hfetch : (fetchItemsTraced env items).1 with
      | error m => rw [hfetch] at h; cases h
      | ok ys =>
        rw [hfetch] at h
        simp only [] at h ⊢
        cases h
        rcases fetchItemsTraced_ok_effects env items xs hfetch with ⟨heff, hlen⟩
        rw [heff]
        unfold countRunLookups countTraceLookups
        rw [List.countP_cons, List.countP_cons]
        constructor
        · have h0 := countRunLookups_traceMap items
          unfold countRunLookups at h0
          simp [h0]
        · have h1 := countTraceLookups_traceMap items
          unfold countTraceLookups at h1
          simp [h1, hlen]

/-- C8: with no cached entry for the pair, a call performs exactly one remote
run lookup and one trace lookup per returned item; a second call with the
same pair returns the same sequence from the cache with no effects at all. -/
theorem c8_memoized_fetch (env : LangfuseEnv) (st : ProcState) (d r : String)
    (xs : List GenericItemInfo)
    (hmiss : lookupCache st.cache d r = none)
    (h : (getDatasetRunItemsTraced env d r).1 = FetchOutcome.items xs) :
    ∃ st2 effs,
      cachedGetDatasetRunItems env st d r = (Except.ok (some xs), st2, effs)
      ∧ countRunLookups effs = 1
      ∧ countTraceLookups effs = xs.length
      ∧ cachedGetDatasetRunItems env st2 d r = (Except.ok (some xs), st2, []) := by
  rcases getDatasetRunItemsTraced_items_effects env d r xs h with ⟨hcr, hct⟩
  refine ⟨ProcState.mk (st.cache ++ [((d, r), some xs)]),
    (getDatasetRunItemsTraced env d r).2, ?_, hcr, hct, ?_⟩
  · unfold cachedGetDatasetRunItems
    rw [hmiss]
    simp only []
    cases hg : getDatasetRunItemsTraced env d r with
    | mk outcome effs =>
      rw [hg] at h
      simp only [] at h
      cases h
      rfl
  · unfold cachedGetDatasetRunItems
    rw [lookupCache_append_self st.cache d r (some xs) hmiss]

/-- A remote environment for the C8 witness: one run with one item whose
trace exists and is empty. -/
def envOneItem : LangfuseEnv where
  get_dataset_run := fun _ _ =>
    RunLookupResult.ok (DatasetRun.mk (some [DatasetRunItem.mk "i1" "t1"]))
  fetch_trace := fun _ => some (Trace.mk (TraceData.mk none none []))

/-- Witness for C8 at a concrete environment and fresh cache. -/
theorem c8_memoized_fetch_witness :
    lookupCache (ProcState.mk []).cache "d" "r" = none
    ∧ (getDatasetRunItemsTraced envOneItem "d" "r").1
        = FetchOutcome.items [GenericItemInfo.mk "i1" "t1" none none []]
    ∧ (∃ st2 effs,
        cachedGetDatasetRunItems envOneItem (ProcState.mk []) "d" "r"
            = (Except.ok (some [GenericItemInfo.mk "i1" "t1" none none []]), st2, effs)
        ∧ countRunLookups effs = 1
        ∧ countTraceLookups effs = [GenericItemInfo.mk "i1" "t1" none none []].length
        ∧ cachedGetDatasetRunItems envOneItem st2 "d" "r"
            = (Except.ok (some [GenericItemInfo.mk "i1" "t1" none none []]), st2, [])) :=
  ⟨rfl, rfl,
    c8_memoized_fetch envOneItem (ProcState.mk []) "d" "r"
      [GenericItemInfo.mk "i1" "t1" none none []] rfl rfl⟩

/-- C9: the text report is independent of `success_score_name` — two
invocations differing only in that argument are identical — and it reports a
statistics block for every observed score name of the aggregate table. -/
theorem c9_text_report_ssn_independent (env : LangfuseEnv)
    (showVal : ℚ → String) (st : ProcState) (d r s1 s2 : String)
    (o : Option String) (xs : List GenericItemInfo) (n : String)
    (vs : List ℚ) (h : (n, vs) ∈ aggregateScores xs) :
    produceTextReportTraced env showVal st d r s1 o
        = produceTextReportTraced env showVal st d r s2 o
    ∧ Effect.echo (scoreBlock showVal n vs) o ∈ textReportEchoes showVal xs r o := by
  refine ⟨rfl, ?_⟩
  unfold textReportEchoes
  refine List.mem_append.mpr (Or.inr ?_)
  exact List.mem_map.mpr ⟨(n, vs), h, rfl⟩

/-- Witness for C9 at a concrete run result set. -/
theorem c9_text_report_ssn_independent_witness :
    ("x", [(1 : ℚ)]) ∈ aggregateScores
        [GenericItemInfo.mk "i" "t" none none [Score.mk "x" 1]]
    ∧ (produceTextReportTraced envOneItem (fun _ => "1") (ProcState.mk [])
          "d" "r" "s1" none
        = produceTextReportTraced envOneItem (fun _ => "1") (ProcState.mk [])
          "d" "r" "s2" none
       ∧ Effect.echo (scoreBlock (fun _ => "1") "x" [(1 : ℚ)]) none
          ∈ textReportEchoes (fun _ => "1")
              [GenericItemInfo.mk "i" "t" none none [Score.mk "x" 1]] "r" none) :=
  ⟨by decide,
    c9_text_report_ssn_independent envOneItem (fun _ => "1") (ProcState.mk [])
      "d" "r" "s1" "s2" none
      [GenericItemInfo.mk "i" "t" none none [Score.mk "x" 1]]
      "x" [(1 : ℚ)] (by decide)⟩

/-- All effects of the item loop are remote trace lookups. -/
theorem fetchItemsTraced_effects_fetch (env : LangfuseEnv) :
    ∀ (l : List DatasetRunItem), ∀ e ∈ (fetchItemsTraced env l).2,
      isFetchEffect e = true := by
  intro l
  induction l with
  | nil => intro e he; cases he
  | cons a rest ih =>
    intro e he
    unfold fetchItemsTraced at he
    cases ha : from_langfuse_item env a with
    | error m =>
      rw [ha] at he
      simp only [] at he
      rcases List.mem_singleton.mp he with rfl
      rfl
    | ok g =>
      rw [ha] at he
      simp only [] at he
      rcases List.mem_cons.mp he with rfl | htail
      · rfl
      · exact ih e htail

/-- All effects of the uncached fetch body are remote lookups or console
diagnostics. -/
theorem getDatasetRunItemsTraced_effects_fetch (env : LangfuseEnv)
    (d r : String) :
    ∀ e ∈ (getDatasetRunItemsTraced env d r).2, isFetchEffect e = true := by
  intro e he
  unfold getDatasetRunItemsTraced at he
  cases hrun : env.get_dataset_run d r with
  | notFound =>
    rw [hrun] at he
    rcases List.mem_cons.mp he with rfl | htail
    · rfl
    · rcases List.mem_singleton.mp htail with rfl
      rfl
  | unauthorized =>
    rw [hrun] at he
    rcases List.mem_singleton.mp he with rfl
    rfl
  | otherError m =>
    rw [hrun] at he
    rcases List.mem_singleton.mp he with rfl
    rfl
  | ok rn =>
    rw [hrun] at he
    simp only [] at he
    cases hitems : rn.dataset_run_items with
    | none =>
      rw [hitems] at he
      rcases List.mem_cons.mp he with rfl | htail
      · rfl
      · rcases List.mem_singleton.mp htail with rfl
        rfl
    | some items =>
      rw [hitems] at he
      simp only [] at he
      cases hfetch : (fetchItemsTraced env items).1 with
      | error m =>
        rw [hfetch] at he
        simp only [] at he
        rcases List.mem_cons.mp he with rfl | htail
        · rfl
        · exact fetchItemsTraced_effects_fetch env items e htail
      | ok ys =>
        rw [hfetch] at he
        simp only [] at he
        rcases List.mem_cons.mp he with rfl | htail
        · rfl
        · exact fetchItemsTraced_effects_fetch env items e htail

/-- All effects of the cached fetch are remote lookups or console
diagnostics — never a file open, report write or file close. -/
theorem cachedGetDatasetRunItems_effects_fetch (env : LangfuseEnv)
    (st : ProcState) (d r : String) :
    ∀ e ∈ (cachedGetDatasetRunItems env st d r).2.2, isFetchEffect e = true := by
  intro e he
  unfold cachedGetDatasetRunItems at he
  cases hl : lookupCache st.cache d r with
  | some v =>
    rw [hl] at he
    cases he
  | none =>
    rw [hl] at he
    simp only [] at he
    cases hg : getDatasetRunItemsTraced env d r with
    | mk outcome effs =>
      have heffs : ∀ e2 ∈ effs, isFetchEffect e2 = true := by
        intro e2 he2
        have := getDatasetRunItemsTraced_effects_fetch env d r e2
        rw [hg] at this
        exact this he2
      rw [hg] at he
      cases outcome <;> simp only [] at he <;> exact heffs e he

/-- C10: with a named output file, both report producers open (truncate) the
file as their very first effect, before the fetch; when the fetch returns
`None` they return early with a trace holding no write to and no close of
the file — the file is left created/truncated to empty and unclosed. -/
theorem c10_file_truncated_on_recovered_failure (env : LangfuseEnv)
    (showVal : ℚ → String) (st st2 : ProcState) (d r ssn p : String)
    (effs : List Effect)
    (h : cachedGetDatasetRunItems env st d r = (Except.ok none, st2, effs)) :
    produceJunitReportTraced env showVal st d r ssn (some p)
        = (none, st2, Effect.openWrite p :: effs)
    ∧ produceTextReportTraced env showVal st d r ssn (some p)
        = (none, st2, Effect.openWrite p :: effs)
    ∧ Effect.closeFile p ∉ Effect.openWrite p :: effs
    ∧ ∀ m, Effect.echo m (some p) ∉ Effect.openWrite p :: effs := by
  have hfetch : ∀ e ∈ effs, isFetchEffect e = true := by
    intro e he
    have := cachedGetDatasetRunItems_effects_fetch env st d r e
    rw [h] at this
    exact this he
  refine ⟨?_, ?_, ?_, ?_⟩
  · unfold produceJunitReportTraced
    rw [h]
    rfl
  · unfold produceTextReportTraced
    rw [h]
    rfl
  · intro hmem
    rcases List.mem_cons.mp hmem with heq | htail
    · exact Effect.noConfusion heq
    · have := hfetch _ htail
      simp [isFetchEffect] at this
  · intro m hmem
    rcases List.mem_cons.mp hmem with heq | htail
    · exact Effect.noConfusion heq
    · have := hfetch _ htail
      simp [isFetchEffect] at this

/-- A remote environment whose run lookup reports NotFound (the recoverable
branch that makes the fetch return `None`). -/
def envRunMissing : LangfuseEnv where
  get_dataset_run := fun _ _ => RunLookupResult.notFound
  fetch_trace := fun _ => none

/-- Witness for C10 at a concrete environment, fresh cache and output path. -/
theorem c10_file_truncated_on_recovered_failure_witness :
    cachedGetDatasetRunItems envRunMissing (ProcState.mk []) "d" "r"
        = (Except.ok none, ProcState.mk [(("d", "r"), none)],
            [Effect.remoteRunLookup "d" "r",
              Effect.secho ("Run " ++ "r" ++ " not found in dataset " ++ "d")])
    ∧ (produceJunitReportTraced envRunMissing (fun _ => "1") (ProcState.mk [])
          "d" "r" "s" (some "out.xml")
          = (none, ProcState.mk [(("d", "r"), none)],
              Effect.openWrite "out.xml"
                :: [Effect.remoteRunLookup "d" "r",
                     Effect.secho ("Run " ++ "r" ++ " not found in dataset " ++ "d")])
       ∧ produceTextReportTraced envRunMissing (fun _ => "1") (ProcState.mk [])
          "d" "r" "s" (some "out.xml")
          = (none, ProcState.mk [(("d", "r"), none)],
              Effect.openWrite "out.xml"
                :: [Effect.remoteRunLookup "d" "r",
                     Effect.secho ("Run " ++ "r" ++ " not found in dataset " ++ "d")])
       ∧ Effect.closeFile "out.xml"
          ∉ Effect.openWrite "out.xml"
              :: [Effect.remoteRunLookup "d" "r",
                   Effect.secho ("Run " ++ "r" ++ " not found in dataset " ++ "d")]
       ∧ ∀ m, Effect.echo m (some "out.xml")
          ∉ Effect.openWrite "out.xml"
              :: [Effect.remoteRunLookup "d" "r",
                   Effect.secho ("Run " ++ "r" ++ " not found in dataset " ++ "d")]) :=
  ⟨rfl,
    c10_file_truncated_on_recovered_failure envRunMissing (fun _ => "1")
      (ProcState.mk []) (ProcState.mk [(("d", "r"), none)]) "d" "r" "s" "out.xml"
      [Effect.remoteRunLookup "d" "r",
        Effect.secho ("Run " ++ "r" ++ " not found in dataset " ++ "d")] rfl⟩
